import Mathlib

/-!
Verification of the stregsystemet transaction/order core against its
specification.  The repository sources available here are the view layer
(`stregsystem/views.py`), the admin layer (`stregsystem/admin.py`) and the
test suite; the model layer (`stregsystem/models.py`) and the quickbuy
command parser (`stregsystem/parser.py`) are not included, so those parts
are modelled from the specification text and checked against the
behaviour the available sources pin down.

Strings are embedded as `List Char`; timestamps and dates as `Int`;
monetary amounts as `Int` minor currency units.
-/

/-! ## Transactions and the member ledger -/

/-- Modelled from the spec: `stregsystem.models.PayTransaction` is missing
from the sources.  A debit transaction accumulates a magnitude via `add`
and applies as a negative change (§4.1, §3 Transaction). -/
structure PayTransaction where
  amount : Int
deriving DecidableEq, Repr

/-- Modelled from the spec: `add(delta)` accumulates magnitude (§4.1). -/
def PayTransaction.add (t : PayTransaction) (delta : Int) : PayTransaction :=
  ⟨t.amount + delta⟩

/-- Modelled from the spec: a debit transaction's `change()` is the
negative of the accumulated magnitude (§3 Transaction, §4.1). -/
def PayTransaction.change (t : PayTransaction) : Int :=
  -t.amount

/-- Modelled from the spec: the `StregForbudError` raised when a member's
balance cannot cover a debit (§7 taxonomy, Forbidden). -/
inductive StregForbudError where
  | forbidden
deriving DecidableEq, Repr

/-- Modelled from the spec: the ledger-bearing part of
`stregsystem.models.Member`, which is missing from the sources.  Only the
balance participates in the ledger operations (§3 Member). -/
structure Member where
  balance : Int
deriving DecidableEq, Repr

/-- Modelled from the spec: `can_fulfill(t)` is true iff
`balance + t.change() >= 0`; pure predicate (§4.2). -/
def Member.can_fulfill (m : Member) (t : PayTransaction) : Bool :=
  decide (0 ≤ m.balance + t.change)

/-- Modelled from the spec: `fulfill(t)` fails with a Forbidden error and
leaves the balance untouched when `can_fulfill(t)` is false, otherwise
sets `balance += t.change()` (§4.2).  The pair returns the raised error
(if any) together with the member state after the call, mirroring the
mutating Python method. -/
def Member.fulfill (m : Member) (t : PayTransaction) :
    Option StregForbudError × Member :=
  if m.can_fulfill t then
    (none, ⟨m.balance + t.change⟩)
  else
    (some .forbidden, m)

/-! ## Products, the sale log and availability -/

/-- Modelled from the spec: `stregsystem.models.Product` is missing from
the sources.  Fields follow §3 Product; `rooms` is the room scope by id,
empty meaning all rooms. -/
structure Product where
  id : Nat
  name : String
  price : Int
  active : Bool
  start_date : Option Int
  quantity : Option Nat
  deactivate_date : Option Int
  rooms : List Nat
deriving DecidableEq, Repr

/-- Modelled from the spec: one persisted Sale row of the append-only sale
log, as far as availability counting and order execution need it
(§3 Sale): the referenced product, the timestamp, and the charged price. -/
structure SaleRow where
  product : Nat
  timestamp : Int
  price : Int
deriving DecidableEq, Repr

/-- Modelled from the spec: the count of Sales referencing this product
since `start_date`; a null `start_date` still counts all historical Sales
of the product (§4.3 edge cases). -/
def countSalesSince (p : Product) (sales : List SaleRow) : Nat :=
  (sales.filter (fun s =>
    decide (s.product = p.id) &&
      match p.start_date with
      | none => true
      | some d => decide (d ≤ s.timestamp))).length

/-- Modelled from the spec: derived state is-active = `active` AND
(`deactivate_date` null OR now < `deactivate_date`) AND (stock unlimited
OR Sales since `start_date` < `quantity`) (§3 Product, §4.3). -/
def Product.is_active (p : Product) (now : Int) (sales : List SaleRow) : Bool :=
  p.active &&
    (match p.deactivate_date with
     | none => true
     | some d => decide (now < d)) &&
    (match p.quantity with
     | none => true
     | some q => decide (countSalesSince p sales < q))

/-! ## Orders and the order engine -/

/-- Modelled from the spec: an Order line item holding a product reference
and its requested count (§3 Order/OrderItem). -/
structure OrderItem where
  product : Product
  count : Nat
deriving DecidableEq, Repr

/-- Modelled from the spec: an ephemeral Order aggregating line items for
a member in a room (§3 Order/OrderItem). -/
structure Order where
  member : Member
  room : Nat
  items : List OrderItem
deriving DecidableEq, Repr

/-- The cost of a line item: the product's price times the count. -/
def OrderItem.lineCost (it : OrderItem) : Int :=
  it.product.price * (it.count : Int)

/-- Modelled from the spec: `total()` is the sum over items of
`product.price * count` (§3 Order/OrderItem, §4.4). -/
def Order.total (o : Order) : Int :=
  (o.items.map OrderItem.lineCost).sum

/-- Modelled from the spec: `from_products` groups a flat product list
into one OrderItem per distinct product whose count is the product's
occurrence count, with multiset semantics (§3 Order/OrderItem, §4.4). -/
def Order.from_products (member : Member) (room : Nat)
    (products : List Product) : Order :=
  ⟨member, room, products.dedup.map (fun p => ⟨p, products.count p⟩)⟩

/-- Modelled from the spec: the single debit transaction of §4.4 step 2,
built by `add`-ing each item's line cost. -/
def Order.transaction (o : Order) : PayTransaction :=
  o.items.foldl (fun t it => t.add it.lineCost) ⟨0⟩

/-- Modelled from the spec: §4.4 step 1's per-item check — the product is
still active and its remaining stock suffices for the item's count. -/
def OrderItem.available (it : OrderItem) (now : Int)
    (sales : List SaleRow) : Bool :=
  it.product.is_active now sales &&
    (match it.product.quantity with
     | none => true
     | some q => decide (countSalesSince it.product sales + it.count ≤ q))

/-- Modelled from the spec: the errors `Order.execute` reports (§4.4,
§7): stock exhaustion and insufficient balance. -/
inductive ExecError where
  | noMoreInventory
  | stregForbud
deriving DecidableEq, Repr

/-- Modelled from the spec: the Sale row persisted for one OrderItem on a
successful execute — one Sale per item at the item's aggregate price,
charged at execution time (§4.4 step 4). -/
def OrderItem.toSaleRow (it : OrderItem) (now : Int) : SaleRow :=
  ⟨it.product.id, now, it.lineCost⟩

/-- Modelled from the spec: `execute()` per §4.4 — first every item is
re-checked for availability and stock (NoMoreInventory aborts before the
ledger is touched), then the aggregate debit transaction is fulfilled
(Forbidden aborts before any Sale row is written), and only on success is
the balance debited and one Sale row appended per item. -/
def Order.execute (o : Order) (now : Int) (sales : List SaleRow) :
    Option ExecError × Member × List SaleRow :=
  if o.items.all (fun it => it.available now sales) then
    match o.member.fulfill o.transaction with
    | (some _, m) => (some .stregForbud, m, sales)
    | (none, m) => (none, m, sales ++ o.items.map (fun it => it.toSaleRow now))
  else
    (some .noMoreInventory, o.member, sales)

/-! ## Sale persistence lifecycle -/

/-- Modelled from the spec: the loud failures of the Sale persistence
hooks (§3 Sale invariant): re-saving an already-persisted Sale, or
deleting a never-persisted one. -/
inductive SaleLifecycleError where
  | alreadySaved
  | notSaved
deriving DecidableEq, Repr

/-- Modelled from the spec: a Sale instance as the persistence hooks see
it — an optional assigned identity, the referenced product, and the
snapshotted charged price (§3 Sale). -/
structure Sale where
  id : Option Nat
  product : Nat
  price : Int
deriving DecidableEq, Repr

/-- Modelled from the spec: saving a Sale must fail loudly when it already
has an identity, and otherwise assigns an identity and debits the member's
balance by the Sale's price exactly once (§3 Sale side effect contract). -/
def Sale.save (s : Sale) (m : Member) (newId : Nat) :
    Except SaleLifecycleError (Sale × Member) :=
  match s.id with
  | some _ => .error .alreadySaved
  | none => .ok ({ s with id := some newId }, ⟨m.balance - s.price⟩)

/-- Modelled from the spec: deleting a Sale must fail on a Sale that was
never persisted, and otherwise credits the balance back by the snapshotted
price and clears the identity (§3 Sale side effect contract). -/
def Sale.delete (s : Sale) (m : Member) :
    Except SaleLifecycleError (Sale × Member) :=
  match s.id with
  | none => .error .notSaved
  | some _ => .ok ({ s with id := none }, ⟨m.balance + s.price⟩)

/-! ## The quickbuy parser -/

/-- Splits a character list on a separator character, keeping empty
fields, as Python `str.split(sep)` does. -/
def splitOnChar (c : Char) : List Char → List (List Char)
  | [] => [[]]
  | x :: xs =>
    if x = c then [] :: splitOnChar c xs
    else
      match splitOnChar c xs with
      | [] => [[x]]
      | y :: ys => (x :: y) :: ys

/-- Joins fields with a separator character, inverse of `splitOnChar`. -/
def joinChar (c : Char) : List (List Char) → List Char
  | [] => []
  | [t] => t
  | t :: t' :: ts => t ++ c :: joinChar c (t' :: ts)

/-- A non-empty run of decimal digits. -/
def isDigits (s : List Char) : Bool :=
  !s.isEmpty && s.all (fun ch => ch.isDigit)

/-- The numeric value of a run of decimal digits. -/
def natOfDigits (s : List Char) : Nat :=
  s.foldl (fun acc ch => 10 * acc + (ch.toNat - 48)) 0

/-- Parses a token as a non-negative integer: digits only, so a negative
or otherwise non-numeric token is rejected (§4.5 grammar). -/
def parseNat? (s : List Char) : Option Nat :=
  if isDigits s then some (natOfDigits s) else none

/-- Modelled from the spec: `stregsystem.parser.QuickBuyError`, carrying
the successfully parsed part of the command string and the failing
remainder (§4.5 error policy, §6). -/
structure QuickBuyError where
  parsed_part : List Char
  failed_part : List Char
deriving DecidableEq, Repr

/-- Modelled from the spec: one item token `product_id [":" quantity]`
contributes its product id `quantity` times; an absent quantity means one
occurrence; an explicit 0 contributes none; anything else is malformed
(§4.5 grammar). -/
def parseItem (tok : List Char) : Option (List Nat) :=
  match splitOnChar ':' tok with
  | [idTok] => (parseNat? idTok).map (fun n => [n])
  | [idTok, qtyTok] =>
    match parseNat? idTok, parseNat? qtyTok with
    | some n, some q => some (List.replicate q n)
    | _, _ => none
  | _ => none

/-- Modelled from the spec: processes the item tokens left to right,
accumulating the already-parsed tokens; on the first malformed item it
fails with a `QuickBuyError` whose parsed part joins the tokens parsed so
far and whose failed part is the erroring token and everything after it
(§4.5 error policy). -/
def parseItems (done : List (List Char)) :
    List (List Char) → Except QuickBuyError (List Nat)
  | [] => .ok []
  | tok :: rest =>
    match parseItem tok with
    | some ids =>
      match parseItems (done ++ [tok]) rest with
      | .ok more => .ok (ids ++ more)
      | .error e => .error e
    | none => .error ⟨joinChar ' ' done, joinChar ' ' (tok :: rest)⟩

/-- Modelled from the spec: `stregsystem.parser.parse` is missing from the
sources.  `command := identifier (SP item)*`: the leading token is the
identifier, the rest are items (§4.5). -/
def parse (line : List Char) : Except QuickBuyError (List Char × List Nat) :=
  match splitOnChar ' ' line with
  | [] => .error ⟨[], line⟩
  | ident :: toks =>
    match parseItems [ident] toks with
    | .ok ids => .ok (ident, ids)
    | .error e => .error e

/-- Grammar-level well-formedness of one item token (§4.5): a run of
digits, optionally followed by `:` and a run of digits. -/
def itemWF (tok : List Char) : Bool :=
  match splitOnChar ':' tok with
  | [idTok] => isDigits idTok
  | [idTok, qtyTok] => isDigits idTok && isDigits qtyTok
  | _ => false

/-- Grammar-level contribution of one well-formed item token: its product
id repeated quantity times (once when the quantity is absent). -/
def itemIds (tok : List Char) : List Nat :=
  match splitOnChar ':' tok with
  | [idTok] => [natOfDigits idTok]
  | [idTok, qtyTok] => List.replicate (natOfDigits qtyTok) (natOfDigits idTok)
  | _ => []

/-- The error pointer the `sale` view renders under an invalid quickbuy
string: one tilde per character of the parsed part, then a caret
(`views.py`, the `error_ptr` value). -/
def errorPtr (parsed : List Char) : List Char :=
  List.replicate parsed.length '~' ++ ['^']

/-! ## The sale view (`stregsystem/views.py`) -/

/-- The templates the quickbuy flow of `views.py` can render. -/
inductive Template where
  | index
  | errorInvalidQuickbuy
  | errorUserNotFound
  | menu
  | indexSale
  | errorStregforbud
deriving DecidableEq, Repr

/-- A member row as the view layer reads it: username, active flag,
balance, and the value of `has_stregforbud()`.  Modelled from the spec:
the member model is missing from the sources and the spec does not define
`has_stregforbud`, so the flag the views branch on is kept as a stored
attribute. -/
structure MemberRow where
  username : List Char
  active : Bool
  balance : Int
  hasStregforbud : Bool
deriving DecidableEq, Repr

/-- The database state the sale view reads and writes. -/
structure Db where
  members : List MemberRow
  products : List Product
  sales : List SaleRow
deriving DecidableEq, Repr

/-- The observable outcome of a request to the sale view: the rendered
template, whether the parser was invoked, whether a member lookup was
performed, and the database state afterwards. -/
structure ViewResult where
  template : Template
  parserInvoked : Bool
  memberLookedUp : Bool
  db : Db
deriving DecidableEq, Repr

/-- Python `str.strip()`: drop leading and trailing whitespace. -/
def pyStrip (l : List Char) : List Char :=
  ((l.dropWhile Char.isWhitespace).reverse.dropWhile Char.isWhitespace).reverse

/-- `Member.objects.get(username=..., active=True)` as the sale view
performs it. -/
def findActiveMember (db : Db) (u : List Char) : Option MemberRow :=
  db.members.find? (fun m => decide (m.username = u) && m.active)

/-- The product lookup of `quicksale`: by id, active, deactivation date
absent or not yet passed, and room scope empty or containing the room. -/
def findSaleProduct (db : Db) (room : Nat) (now : Int) (i : Nat) :
    Option Product :=
  db.products.find? (fun p =>
    decide (p.id = i) && p.active &&
      (match p.deactivate_date with
       | none => true
       | some d => decide (now ≤ d)) &&
      (p.rooms.isEmpty || decide (room ∈ p.rooms)))

/-- Looks up every bought id in order; the whole lookup fails on the first
missing product, as the `Product.DoesNotExist` branch of `quicksale`
does. -/
def findSaleProducts (db : Db) (room : Nat) (now : Int) :
    List Nat → Option (List Product)
  | [] => some []
  | i :: is =>
    match findSaleProduct db room now i with
    | none => none
    | some p =>
      match findSaleProducts db room now is with
      | none => none
      | some ps => some (p :: ps)

/-- The template `usermenu` renders: the stregforbud error page when the
member has stregforbud, the menu otherwise. -/
def usermenuTemplate (m : MemberRow) : Template :=
  if m.hasStregforbud then .errorStregforbud else .menu

/-- Writes a member's new balance back into the member table. -/
def updateBalance (members : List MemberRow) (u : List Char) (b : Int) :
    List MemberRow :=
  members.map (fun m => if m.username = u then { m with balance := b } else m)

/-- The `quicksale` view: resolves the bought ids (falling back to the
user menu when a product is missing), executes the order, rendering the
stregforbud error page on both `StregForbudError` and
`NoMoreInventoryError` (the `@INCOMPLETE` branch of `views.py`), and the
sale confirmation page on success. -/
def quicksaleView (db : Db) (room : Nat) (now : Int) (m : MemberRow)
    (ids : List Nat) : ViewResult :=
  match findSaleProducts db room now ids with
  | none => ⟨usermenuTemplate m, true, true, db⟩
  | some prods =>
    match (Order.from_products ⟨m.balance⟩ room prods).execute now db.sales with
    | (some _, _, _) => ⟨.errorStregforbud, true, true, db⟩
    | (none, m', sales') =>
      ⟨.indexSale, true, true,
        { db with
            members := updateBalance db.members m.username m'.balance,
            sales := sales' }⟩

/-- The `sale` view of `views.py`: strips the posted quickbuy string,
renders the plain index on an empty line, otherwise parses, looks up the
member, and dispatches to the user menu or `quicksale`. -/
def saleView (raw : List Char) (room : Nat) (now : Int) (db : Db) :
    ViewResult :=
  let buy := pyStrip raw
  if buy.isEmpty then ⟨.index, false, false, db⟩
  else
    match parse buy with
    | .error _ => ⟨.errorInvalidQuickbuy, true, false, db⟩
    | .ok (username, ids) =>
      match findActiveMember db username with
      | none => ⟨.errorUserNotFound, true, true, db⟩
      | some m =>
        if ids.isEmpty then ⟨usermenuTemplate m, true, true, db⟩
        else quicksaleView db room now m ids

/-! ## The admin bulk toggle (`stregsystem/admin.py`) -/

/-- One iteration of `toggle_active_selected_products`: clear the
deactivation date and flip the active flag. -/
def toggleProduct (p : Product) : Product :=
  { p with deactivate_date := none, active := !p.active }

/-- The bulk admin action `toggle_active_selected_products` applied to a
queryset. -/
def toggle_active_selected_products (qs : List Product) : List Product :=
  qs.map toggleProduct

/-! ## Concrete inputs used by witnesses and counterexamples -/

/-- A product with unlimited stock, used by the order witnesses. -/
def beerProduct : Product :=
  ⟨1, "øl", 10, true, none, none, none, []⟩

/-- A product allotted a single unit of stock. -/
def scarceProduct : Product :=
  ⟨1, "øl", 10, true, some 0, some 1, none, []⟩

/-- A sale log holding one prior sale of product 1. -/
def oneSaleLog : List SaleRow :=
  [⟨1, 3, 100⟩]

/-- An order of one unit of the scarce product by a member holding 100. -/
def scarceOrder : Order :=
  ⟨⟨100⟩, 1, [⟨scarceProduct, 1⟩]⟩

/-- An order of two beers by a member holding only 5. -/
def poorOrder : Order :=
  ⟨⟨5⟩, 1, [⟨beerProduct, 2⟩]⟩

/-- A database with an active member under stregforbud and a member who
cannot cover the only product, used by the C8 scenarios. -/
def demoDb : Db :=
  ⟨[⟨['j', 'a', 'n'], true, 100, true⟩,
    ⟨['b', 'o', 'b'], true, 3, false⟩],
   [beerProduct], []⟩

/-- The quickbuy line `jan 99`: existing member, unknown product. -/
def rawUnknownProduct : List Char :=
  ['j', 'a', 'n', ' ', '9', '9']

/-- The quickbuy line `bob 1`: existing member, known product, balance too
small. -/
def rawPoorMember : List Char :=
  ['b', 'o', 'b', ' ', '1']

/-! ## Theorems -/

/-- C2: for every member and transaction, `can_fulfill` is true iff
`balance + change ≥ 0`; `fulfill` raises `StregForbudError` and leaves the
balance exactly unchanged when `can_fulfill` is false, and otherwise sets
the balance to `balance + change`. -/
theorem member_fulfill_spec (m : Member) (t : PayTransaction) :
    (m.can_fulfill t = true ↔ 0 ≤ m.balance + t.change) ∧
    (m.can_fulfill t = false →
      m.fulfill t = (some StregForbudError.forbidden, m)) ∧
    (m.can_fulfill t = true →
      m.fulfill t = (none, ⟨m.balance + t.change⟩)) := by
  refine ⟨by simp [Member.can_fulfill], ?_, ?_⟩
  · intro h
    simp [Member.fulfill, h]
  · intro h
    simp [Member.fulfill, h]

/-- Witness for C2 at concrete inputs: a member with balance 2 cannot
cover a debit of 10, the failed fulfill leaves the balance at 2, and a
member with balance 100 paying 10 ends at 90. -/
theorem member_fulfill_spec_witness :
    (Member.can_fulfill ⟨2⟩ ⟨10⟩ = false →
      Member.fulfill ⟨2⟩ ⟨10⟩ = (some StregForbudError.forbidden, ⟨2⟩)) ∧
    (Member.can_fulfill ⟨100⟩ ⟨10⟩ = true →
      Member.fulfill ⟨100⟩ ⟨10⟩ = (none, ⟨90⟩)) ∧
    Member.can_fulfill ⟨2⟩ ⟨10⟩ = false ∧
    Member.can_fulfill ⟨100⟩ ⟨10⟩ = true :=
  ⟨(member_fulfill_spec ⟨2⟩ ⟨10⟩).2.1,
   fun h => by
     have := (member_fulfill_spec ⟨100⟩ ⟨10⟩).2.2 h
     simpa [PayTransaction.change] using this,
   by decide, by decide⟩

/-- C3: `is_active(now)` equals `active` AND (`deactivate_date` null OR
`now < deactivate_date`) AND (`quantity` null OR Sales since `start_date`
< `quantity`); it is false once `deactivate_date` is in the past even when
`active` holds, false once the Sale count reaches `quantity`, and a null
`start_date` with a finite `quantity` still counts all historical Sales. -/
theorem product_is_active_spec (p : Product) (now : Int) (sales : List SaleRow) :
    (p.is_active now sales = true ↔
      (p.active = true ∧
        (∀ d, p.deactivate_date = some d → now < d) ∧
        (∀ q, p.quantity = some q → countSalesSince p sales < q))) ∧
    (∀ d, p.deactivate_date = some d → d ≤ now → p.is_active now sales = false) ∧
    (∀ q, p.quantity = some q → q ≤ countSalesSince p sales →
      p.is_active now sales = false) ∧
    (p.start_date = none →
      countSalesSince p sales =
        (sales.filter (fun s => decide (s.product = p.id))).length) := by
  refine ⟨?_, ?_, ?_, ?_⟩
  · cases hd : p.deactivate_date <;> cases hq : p.quantity <;>
      simp [Product.is_active, hd, hq, and_assoc]
  · intro d hd hle
    cases hq : p.quantity <;>
      simp [Product.is_active, hd, hq, not_lt.mpr hle]
  · intro q hq hle
    cases hd : p.deactivate_date <;>
      simp [Product.is_active, hd, hq, not_lt.mpr hle]
  · intro hs
    simp [countSalesSince, hs]

/-- Witness for C3 at concrete inputs: a product with a past deactivation
date is inactive although `active = true`, a product whose single unit was
already sold is inactive, and with a null `start_date` the historical sale
is still counted. -/
theorem product_is_active_spec_witness :
    (Product.is_active
      ⟨1, "beer", 100, true, some 0, none, some 5, []⟩ 10 [] = false) ∧
    (Product.is_active scarceProduct 10 oneSaleLog = false) ∧
    (countSalesSince ⟨1, "beer", 100, true, none, some 1, none, []⟩ oneSaleLog =
      1) :=
  ⟨(product_is_active_spec ⟨1, "beer", 100, true, some 0, none, some 5, []⟩ 10
      []).2.1 5 rfl (by decide),
   (product_is_active_spec scarceProduct 10 oneSaleLog).2.2.1 1 rfl (by decide),
   by
     have := (product_is_active_spec ⟨1, "beer", 100, true, none, some 1, none, []⟩
       10 oneSaleLog).2.2.2 rfl
     simpa [oneSaleLog] using this⟩

/-- The accumulated amount of the order's debit transaction is the order
total. -/
theorem Order.transaction_amount (o : Order) :
    o.transaction.amount = o.total := by
  have h : ∀ (l : List OrderItem) (a : Int),
      (l.foldl (fun t it => t.add it.lineCost) (PayTransaction.mk a)).amount =
        a + (l.map OrderItem.lineCost).sum := by
    intro l
    induction l with
    | nil => simp [PayTransaction.add]
    | cons x xs ih =>
      intro a
      have hadd : (PayTransaction.mk a).add x.lineCost =
          PayTransaction.mk (a + x.lineCost) := rfl
      rw [List.foldl_cons, hadd, ih, List.map_cons, List.sum_cons, add_assoc]
  simpa using h o.items 0

/-- C7: `from_products` yields exactly one OrderItem per distinct product
of the input sequence, each item's count is that product's occurrence
count, the result is invariant under permutation of the input (multiset
semantics), and `total()` is the sum over items of `price * count`. -/
theorem order_from_products_spec (member : Member) (room : Nat)
    (products : List Product) :
    ((Order.from_products member room products).items.map
        OrderItem.product).Nodup ∧
    (∀ p, p ∈ (Order.from_products member room products).items.map
        OrderItem.product ↔ p ∈ products) ∧
    (∀ it ∈ (Order.from_products member room products).items,
      it.count = products.count it.product) ∧
    ((Order.from_products member room products).total =
      ((Order.from_products member room products).items.map
        (fun it => it.product.price * (it.count : Int))).sum) ∧
    (∀ l', products.Perm l' →
      ((Order.from_products member room products).items.map
          (fun it => (it.product, it.count))).Perm
        ((Order.from_products member room l').items.map
          (fun it => (it.product, it.count)))) := by
  have hmap : (Order.from_products member room products).items.map
      OrderItem.product = products.dedup := by
    show (products.dedup.map (fun p =>
      (⟨p, products.count p⟩ : OrderItem))).map OrderItem.product =
        products.dedup
    rw [List.map_map]
    exact List.map_id products.dedup
  refine ⟨?_, ?_, ?_, rfl, ?_⟩
  · rw [hmap]
    exact List.nodup_dedup products
  · intro p
    rw [hmap]
    exact List.mem_dedup
  · intro it hit
    simp only [Order.from_products, List.mem_map] at hit
    obtain ⟨p, _, rfl⟩ := hit
    rfl
  · intro l' hperm
    have h1 : (Order.from_products member room products).items.map
        (fun it => (it.product, it.count)) =
        products.dedup.map (fun p => (p, products.count p)) := by
      rw [Order.from_products, List.map_map]
      rfl
    have h2 : (Order.from_products member room l').items.map
        (fun it => (it.product, it.count)) =
        l'.dedup.map (fun p => (p, l'.count p)) := by
      rw [Order.from_products, List.map_map]
      rfl
    rw [h1, h2]
    have hstep := (hperm.dedup).map (fun p => (p, products.count p))
    have hcongr : l'.dedup.map (fun p => (p, products.count p)) =
        l'.dedup.map (fun p => (p, l'.count p)) := by
      refine List.map_congr_left ?_
      intro a _
      rw [hperm.count_eq]
    rw [hcongr] at hstep
    exact hstep

/-- Witness for C7 at a concrete input: grouping `[p, p]` yields nodup
item products, the item `⟨p, 2⟩` carries the occurrence count of `p`, and
the order is invariant under a permutation of the input. -/
theorem order_from_products_spec_witness :
    ((Order.from_products ⟨100⟩ 1 [beerProduct, beerProduct]).items.map
        OrderItem.product).Nodup ∧
    (OrderItem.count ⟨beerProduct, 2⟩ =
      List.count beerProduct [beerProduct, beerProduct]) ∧
    ((Order.from_products ⟨100⟩ 1 [beerProduct, beerProduct]).items.map
        (fun it => (it.product, it.count))).Perm
      ((Order.from_products ⟨100⟩ 1 [beerProduct, beerProduct]).items.map
        (fun it => (it.product, it.count))) :=
  ⟨(order_from_products_spec ⟨100⟩ 1 [beerProduct, beerProduct]).1,
   (order_from_products_spec ⟨100⟩ 1 [beerProduct, beerProduct]).2.2.1
     ⟨beerProduct, 2⟩ (by decide),
   (order_from_products_spec ⟨100⟩ 1 [beerProduct, beerProduct]).2.2.2.2
     [beerProduct, beerProduct] (List.Perm.refl _)⟩

/-- C1: `execute` validates availability and stock for every OrderItem
before the balance is touched — an order with a failing item raises
NoMoreInventory with the balance unchanged and no Sale row created; an
order whose items all pass but whose member cannot cover the total raises
Forbidden and creates no Sale row. -/
theorem order_execute_spec (o : Order) (now : Int) (sales : List SaleRow) :
    ((∃ it ∈ o.items, it.available now sales = false) →
      o.execute now sales = (some ExecError.noMoreInventory, o.member, sales)) ∧
    ((∀ it ∈ o.items, it.available now sales = true) →
      o.member.balance < o.total →
      o.execute now sales = (some ExecError.stregForbud, o.member, sales)) := by
  constructor
  · rintro ⟨it, hmem, hfail⟩
    have hall : o.items.all (fun it => it.available now sales) = false := by
      rw [List.all_eq_false]
      exact ⟨it, hmem, by simp [hfail]⟩
    simp [Order.execute, hall]
  · intro hpass hlt
    have hall : o.items.all (fun it => it.available now sales) = true := by
      rw [List.all_eq_true]
      exact hpass
    have hcf : o.member.can_fulfill o.transaction = false := by
      have : ¬ (0 ≤ o.member.balance + o.transaction.change) := by
        rw [PayTransaction.change, Order.transaction_amount]
        omega
      simp [Member.can_fulfill, this]
    have hful : o.member.fulfill o.transaction =
        (some StregForbudError.forbidden, o.member) := by
      simp [Member.fulfill, hcf]
    simp [Order.execute, hall, hful]

/-- Witness for C1 at concrete inputs: a product with quantity 1 and one
prior Sale raises NoMoreInventory leaving the ledger and sale log intact,
and a passing order against a balance of 5 with total 20 raises the
Forbidden error with no Sale created. -/
theorem order_execute_spec_witness :
    scarceOrder.execute 5 oneSaleLog =
      (some ExecError.noMoreInventory, ⟨100⟩, oneSaleLog) ∧
    poorOrder.execute 5 [] = (some ExecError.stregForbud, ⟨5⟩, []) :=
  ⟨(order_execute_spec scarceOrder 5 oneSaleLog).1
     ⟨⟨scarceProduct, 1⟩, by decide, by decide⟩,
   (order_execute_spec poorOrder 5 []).2 (by decide) (by decide)⟩

/-- C6: saving the same Sale instance a second time fails, deleting a
never-saved Sale fails, and deleting a previously-saved Sale succeeds and
restores the member's balance by exactly the Sale's snapshotted price. -/
theorem sale_lifecycle_spec (s : Sale) (m m2 : Member) (newId k : Nat) :
    (∀ s' m', s.save m newId = .ok (s', m') →
      s'.save m2 k = .error SaleLifecycleError.alreadySaved) ∧
    (s.id = none → s.delete m = .error SaleLifecycleError.notSaved) ∧
    (∀ s' m', s.save m newId = .ok (s', m') →
      ∃ s'' m'', s'.delete m' = .ok (s'', m'') ∧ m''.balance = m.balance) := by
  refine ⟨?_, ?_, ?_⟩
  · intro s' m' h
    cases hid : s.id with
    | some i => simp [Sale.save, hid] at h
    | none =>
      simp [Sale.save, hid] at h
      obtain ⟨rfl, rfl⟩ := h
      simp [Sale.save]
  · intro hid
    simp [Sale.delete, hid]
  · intro s' m' h
    cases hid : s.id with
    | some i => simp [Sale.save, hid] at h
    | none =>
      simp [Sale.save, hid] at h
      obtain ⟨rfl, rfl⟩ := h
      refine ⟨⟨none, s.product, s.price⟩, ⟨m.balance - s.price + s.price⟩,
        rfl, ?_⟩
      show m.balance - s.price + s.price = m.balance
      omega

/-- Witness for C6 at concrete inputs: saving a fresh Sale of price 100
gives it identity 7 and debits the member to 0; re-saving it fails,
deleting the fresh instance fails, and deleting the saved one restores the
balance to 100. -/
theorem sale_lifecycle_spec_witness :
    (Sale.save ⟨some 7, 1, 100⟩ ⟨50⟩ 3 =
      .error SaleLifecycleError.alreadySaved) ∧
    (Sale.delete ⟨none, 1, 100⟩ ⟨100⟩ = .error SaleLifecycleError.notSaved) ∧
    (∃ s'' m'', Sale.delete ⟨some 7, 1, 100⟩ ⟨0⟩ = .ok (s'', m'') ∧
      m''.balance = (100 : Int)) :=
  ⟨(sale_lifecycle_spec ⟨none, 1, 100⟩ ⟨100⟩ ⟨50⟩ 7 3).1 ⟨some 7, 1, 100⟩ ⟨0⟩
     rfl,
   (sale_lifecycle_spec ⟨none, 1, 100⟩ ⟨100⟩ ⟨50⟩ 7 3).2.1 rfl,
   (sale_lifecycle_spec ⟨none, 1, 100⟩ ⟨100⟩ ⟨50⟩ 7 3).2.2 ⟨some 7, 1, 100⟩ ⟨0⟩
     rfl⟩

/-- C9: the bulk toggle admin action maps each selected product, and on
each product it only resets `deactivate_date` to null and negates
`active`, leaving name, price, quantity, start date, room scope and id
unchanged. -/
theorem toggle_products_spec (qs : List Product) :
    toggle_active_selected_products qs = qs.map toggleProduct ∧
    ∀ p : Product,
      (toggleProduct p).active = !p.active ∧
      (toggleProduct p).deactivate_date = none ∧
      (toggleProduct p).name = p.name ∧
      (toggleProduct p).price = p.price ∧
      (toggleProduct p).quantity = p.quantity ∧
      (toggleProduct p).start_date = p.start_date ∧
      (toggleProduct p).rooms = p.rooms ∧
      (toggleProduct p).id = p.id :=
  ⟨rfl, fun _ => ⟨rfl, rfl, rfl, rfl, rfl, rfl, rfl, rfl⟩⟩

/-- C10: a POST whose quickbuy string is empty after stripping surrounding
whitespace renders the plain index page without invoking the parser,
without looking up any member, and without mutating the database. -/
theorem sale_view_empty_spec (raw : List Char) (room : Nat) (now : Int)
    (db : Db) (h : pyStrip raw = []) :
    saleView raw room now db = ⟨Template.index, false, false, db⟩ := by
  simp [saleView, h]

/-- Witness for C10 at a concrete input: a quickbuy string of two blanks
renders the index and leaves the demo database untouched. -/
theorem sale_view_empty_spec_witness :
    saleView [' ', ' '] 1 0 demoDb = ⟨Template.index, false, false, demoDb⟩ :=
  sale_view_empty_spec [' ', ' '] 1 0 demoDb (by decide)

/-- Splitting a field that does not contain the separator leaves it
whole. -/
theorem splitOnChar_of_not_mem (c : Char) (t : List Char) (h : c ∉ t) :
    splitOnChar c t = [t] := by
  induction t with
  | nil => rfl
  | cons x xs ih =>
    have hx : ¬ x = c := fun e => h (e ▸ List.mem_cons_self x xs)
    have hxs : c ∉ xs := fun hc => h (List.mem_cons_of_mem _ hc)
    simp [splitOnChar, hx, ih hxs]

/-- Splitting after a separator-free field peels that field off. -/
theorem splitOnChar_append (c : Char) (t rest : List Char) (h : c ∉ t) :
    splitOnChar c (t ++ c :: rest) = t :: splitOnChar c rest := by
  induction t with
  | nil => simp [splitOnChar]
  | cons x xs ih =>
    have hx : ¬ x = c := fun e => h (e ▸ List.mem_cons_self x xs)
    have hxs : c ∉ xs := fun hc => h (List.mem_cons_of_mem _ hc)
    simp [splitOnChar, hx, ih hxs]

/-- `splitOnChar` inverts `joinChar` on a non-empty list of
separator-free fields. -/
theorem splitOnChar_joinChar (c : Char) :
    ∀ ts : List (List Char), ts ≠ [] → (∀ t ∈ ts, c ∉ t) →
      splitOnChar c (joinChar c ts) = ts
  | [], h, _ => absurd rfl h
  | [t], _, hfree => by
    simp [joinChar, splitOnChar_of_not_mem c t (hfree t (by simp))]
  | t :: t' :: ts, _, hfree => by
    have h1 : c ∉ t := hfree t (by simp)
    have h2 : ∀ u ∈ t' :: ts, c ∉ u := fun u hu =>
      hfree u (List.mem_cons_of_mem _ hu)
    show splitOnChar c (t ++ c :: joinChar c (t' :: ts)) = t :: t' :: ts
    rw [splitOnChar_append c t _ h1,
      splitOnChar_joinChar c (t' :: ts) (by simp) h2]

/-- `parseItem` succeeds exactly on grammar-level well-formed item tokens
and returns precisely their contribution. -/
theorem parseItem_eq (tok : List Char) :
    parseItem tok = if itemWF tok then some (itemIds tok) else none := by
  cases h : splitOnChar ':' tok with
  | nil => simp [parseItem, itemWF, itemIds, h]
  | cons a l =>
    cases l with
    | nil =>
      by_cases h1 : isDigits a = true <;>
        simp [parseItem, itemWF, itemIds, parseNat?, h, h1]
    | cons b l2 =>
      cases l2 with
      | nil =>
        by_cases h1 : isDigits a = true <;>
          by_cases h2 : isDigits b = true <;>
            simp [parseItem, itemWF, itemIds, parseNat?, h, h1, h2]
      | cons d l3 => simp [parseItem, itemWF, itemIds, h]

/-- On a run of well-formed item tokens, `parseItems` succeeds with the
concatenation of the tokens' contributions. -/
theorem parseItems_ok (toks : List (List Char))
    (hwf : ∀ t ∈ toks, itemWF t = true) :
    ∀ done, parseItems done toks = .ok (toks.flatMap itemIds) := by
  induction toks with
  | nil => intro _; rfl
  | cons tok rest ih =>
    intro done
    have h1 : parseItem tok = some (itemIds tok) := by
      rw [parseItem_eq, if_pos (hwf tok (List.mem_cons_self tok rest))]
    have h2 := ih (fun t ht => hwf t (List.mem_cons_of_mem _ ht)) (done ++ [tok])
    simp [parseItems, h1, h2]

/-- On the first malformed token, `parseItems` fails with the tokens
parsed so far joined as the parsed part and the malformed token and
everything after it joined as the failed part. -/
theorem parseItems_error (pre : List (List Char)) (bad : List Char)
    (rest : List (List Char)) (hwf : ∀ t ∈ pre, itemWF t = true)
    (hbad : itemWF bad = false) :
    ∀ done, parseItems done (pre ++ bad :: rest) =
      .error ⟨joinChar ' ' (done ++ pre), joinChar ' ' (bad :: rest)⟩ := by
  induction pre with
  | nil =>
    intro done
    have h1 : parseItem bad = none := by
      rw [parseItem_eq, hbad]
      rfl
    simp [parseItems, h1]
  | cons t pre ih =>
    intro done
    have h1 : parseItem t = some (itemIds t) := by
      rw [parseItem_eq, if_pos (hwf t (List.mem_cons_self t pre))]
    have h2 := ih (fun u hu => hwf u (List.mem_cons_of_mem _ hu)) (done ++ [t])
    have h3 : (done ++ [t]) ++ pre = done ++ t :: pre := by simp
    rw [h3] at h2
    simp [parseItems, h1, h2]

/-- C4: on every well-formed quickbuy command line, `parse` returns the
leading identifier together with the list of product ids in which each
item contributes its id exactly `quantity` times — once when the quantity
is absent, zero times when it is an explicit 0, duplicates across items
preserved. -/
theorem parse_wellformed_spec (ident : List Char) (toks : List (List Char))
    (hident : ident ≠ []) (hsp : ' ' ∉ ident)
    (htoksp : ∀ t ∈ toks, ' ' ∉ t)
    (hwf : ∀ t ∈ toks, itemWF t = true) :
    parse (joinChar ' ' (ident :: toks)) = .ok (ident, toks.flatMap itemIds) := by
  have hfree : ∀ t ∈ ident :: toks, ' ' ∉ t := by
    intro t ht
    rcases List.mem_cons.1 ht with rfl | h
    · exact hsp
    · exact htoksp t h
  have hsplit : splitOnChar ' ' (joinChar ' ' (ident :: toks)) =
      ident :: toks :=
    splitOnChar_joinChar ' ' (ident :: toks) (by simp) hfree
  simp [parse, hsplit, parseItems_ok toks hwf [ident]]

/-- Witness for C4 at concrete inputs: `test 42:2 1337:3` parses to
identifier `test` and ids `[42, 42, 1337, 1337, 1337]`, and `test 42:0`
parses to `test` with zero products. -/
theorem parse_wellformed_spec_witness :
    parse ("test 42:2 1337:3".toList) =
      .ok ("test".toList, [42, 42, 1337, 1337, 1337]) ∧
    parse ("test 42:0".toList) = .ok ("test".toList, []) :=
  ⟨parse_wellformed_spec "test".toList ["42:2".toList, "1337:3".toList]
      (by decide) (by decide) (by decide) (by decide),
   parse_wellformed_spec "test".toList ["42:0".toList]
      (by decide) (by decide) (by decide) (by decide)⟩

/-- C5 counterexample: on `test 42:a 1337:3` the parser fails with parsed
part `test` and failed part `42:a 1337:3`, but the error pointer the
`sale` view renders (`error_ptr` in `views.py`) has length 5, not the
length 4 of the parsed part — one tilde per parsed character plus the
caret. -/
theorem parse_error_pointer_counterexample :
    parse ("test 42:a 1337:3".toList) =
      .error ⟨"test".toList, "42:a 1337:3".toList⟩ ∧
    (errorPtr ("test".toList)).length ≠ ("test".toList).length := by
  constructor
  · rfl
  · decide

/-- C5 (amended): on every command line with a malformed item, `parse`
fails with a `QuickBuyError` whose parsed part joins the identifier and
the items parsed before the error and whose failed part is the malformed
token and everything after it, nothing being applied; the view's error
pointer has length one greater than the parsed part — its tildes span the
parsed part and the final caret marks the failure position. -/
theorem parse_error_spec (ident : List Char) (pre : List (List Char))
    (bad : List Char) (rest : List (List Char))
    (hsp : ' ' ∉ ident) (hpresp : ∀ t ∈ pre, ' ' ∉ t)
    (hbadsp : ' ' ∉ bad) (hrestsp : ∀ t ∈ rest, ' ' ∉ t)
    (hwf : ∀ t ∈ pre, itemWF t = true) (hbad : itemWF bad = false) :
    parse (joinChar ' ' (ident :: (pre ++ bad :: rest))) =
      .error ⟨joinChar ' ' (ident :: pre), joinChar ' ' (bad :: rest)⟩ ∧
    (errorPtr (joinChar ' ' (ident :: pre))).length =
      (joinChar ' ' (ident :: pre)).length + 1 := by
  constructor
  · have hfree : ∀ t ∈ ident :: (pre ++ bad :: rest), ' ' ∉ t := by
      intro t ht
      rcases List.mem_cons.1 ht with rfl | h
      · exact hsp
      · rcases List.mem_append.1 h with h1 | h2
        · exact hpresp t h1
        · rcases List.mem_cons.1 h2 with rfl | h3
          · exact hbadsp
          · exact hrestsp t h3
    have hsplit : splitOnChar ' ' (joinChar ' ' (ident :: (pre ++ bad :: rest)))
        = ident :: (pre ++ bad :: rest) :=
      splitOnChar_joinChar ' ' _ (by simp) hfree
    have herr := parseItems_error pre bad rest hwf hbad [ident]
    have hcons : ([ident] ++ pre : List (List Char)) = ident :: pre := rfl
    rw [hcons] at herr
    simp [parse, hsplit, herr]
  · simp [errorPtr]

/-- Witness for C5 (amended) at a concrete input: `test 42:a 1337:3`
fails with parsed part `test` and failed part `42:a 1337:3`, and the
rendered error pointer `~~~~^` has length 5 = 4 + 1. -/
theorem parse_error_spec_witness :
    parse ("test 42:a 1337:3".toList) =
      .error ⟨"test".toList, "42:a 1337:3".toList⟩ ∧
    (errorPtr ("test".toList)).length = ("test".toList).length + 1 :=
  parse_error_spec "test".toList [] "42:a".toList ["1337:3".toList]
    (by decide) (by decide) (by decide) (by decide) (by decide) (by decide)

/-- C8 counterexample: for the member `jan` (active, under stregforbud)
and the unknown product 99, the quickbuy `jan 99` renders the stregforbud
error template — the very template the insufficient-balance case `bob 1`
renders — so the unknown-product case is not reported distinctly from the
insufficient-balance rendering. -/
theorem sale_view_notfound_counterexample :
    findSaleProducts demoDb 1 0 [99] = none ∧
    (saleView rawUnknownProduct 1 0 demoDb).template =
      Template.errorStregforbud ∧
    (saleView rawPoorMember 1 0 demoDb).template =
      Template.errorStregforbud ∧
    (saleView rawUnknownProduct 1 0 demoDb).template =
      (saleView rawPoorMember 1 0 demoDb).template := by
  refine ⟨rfl, rfl, rfl, rfl⟩

/-- C8 (amended): an unknown member is rendered as the user-not-found
template, distinct from the insufficient-balance (stregforbud) rendering;
an unknown product falls back to the user menu, which is distinct from
the insufficient-balance rendering whenever the member is not under
stregforbud. -/
theorem sale_view_notfound_spec (raw : List Char) (room : Nat) (now : Int)
    (db : Db) (username : List Char) (ids : List Nat) :
    (pyStrip raw ≠ [] → parse (pyStrip raw) = .ok (username, ids) →
      findActiveMember db username = none →
      (saleView raw room now db).template = Template.errorUserNotFound ∧
      Template.errorUserNotFound ≠ Template.errorStregforbud) ∧
    (∀ m, pyStrip raw ≠ [] → parse (pyStrip raw) = .ok (username, ids) →
      findActiveMember db username = some m →
      ids ≠ [] → findSaleProducts db room now ids = none →
      m.hasStregforbud = false →
      (saleView raw room now db).template = Template.menu ∧
      Template.menu ≠ Template.errorStregforbud) := by
  constructor
  · intro hne hparse hfind
    refine ⟨?_, by decide⟩
    have hempty : (pyStrip raw).isEmpty = false := by
      cases hl : pyStrip raw with
      | nil => exact absurd hl hne
      | cons a l => rfl
    simp [saleView, hempty, hparse, hfind]
  · intro m hne hparse hfind hids hprods hforbud
    refine ⟨?_, by decide⟩
    have hempty : (pyStrip raw).isEmpty = false := by
      cases hl : pyStrip raw with
      | nil => exact absurd hl hne
      | cons a l => rfl
    have hidsempty : ids.isEmpty = false := by
      cases hl : ids with
      | nil => exact absurd hl hids
      | cons a l => rfl
    simp [saleView, hempty, hparse, hfind, hidsempty, quicksaleView, hprods,
      usermenuTemplate, hforbud]

/-- Witness for C8 (amended) at concrete inputs: the quickbuy `ann 1`
names no active member of the demo database and renders the
user-not-found template, and `bob 99` (known member not under
stregforbud, unknown product) renders the menu; both are distinct from
the stregforbud template. -/
theorem sale_view_notfound_spec_witness :
    ((saleView ['a', 'n', 'n', ' ', '1'] 1 0 demoDb).template =
        Template.errorUserNotFound ∧
      Template.errorUserNotFound ≠ Template.errorStregforbud) ∧
    ((saleView ['b', 'o', 'b', ' ', '9', '9'] 1 0 demoDb).template =
        Template.menu ∧
      Template.menu ≠ Template.errorStregforbud) :=
  ⟨(sale_view_notfound_spec ['a', 'n', 'n', ' ', '1'] 1 0 demoDb
      ['a', 'n', 'n'] [1]).1 (by decide) rfl rfl,
   (sale_view_notfound_spec ['b', 'o', 'b', ' ', '9', '9'] 1 0 demoDb
      ['b', 'o', 'b'] [99]).2 ⟨['b', 'o', 'b'], true, 3, false⟩
      (by decide) rfl rfl (by decide) rfl rfl⟩
